import Mathlib

/-!
Verification development for the Sentinel-2 download-and-processing
repository.  The definitions below are a shallow embedding of
`Sentinel2/A1_sentinel2_products.py` (the band-math product computation and
mosaic-assembly pipeline) together with the driver loop of
`sentinel-2_process.py`.

Numeric model: numpy float32 grids are embedded as maps from a flattened
pixel index to an extended value type `F` that carries the IEEE special
values (NaN, plus/minus infinity) explicitly and represents finite floats
by exact rationals.  Element-wise numpy arithmetic, the mask assignments
`A[cond] = -9999.0`, and the comparison semantics of NaN (all comparisons
false) are reproduced on `F`.

Orchestration model: the external raster library (GDAL) and the file
system are abstracted by an environment `Env` recording, for each path,
whether the corresponding external operation succeeds; the orchestrator's
Python-level control flow, including caught/uncaught exceptions and the
function-scoped locals (`requiredInputOutputPaths`, `outName`,
`resultRaster`) that persist across loop iterations, is embedded with
explicit state passing in the `Except` monad (`Except.error` = an uncaught
Python exception escaping `calculateProducts`).
-/

namespace Sentinel2

/-- Extended float value: numpy float32 values with the IEEE special values
made explicit; finite values carried exactly as rationals. -/
inductive F where
  | nan : F
  | inf : F
  | ninf : F
  | val : ℚ → F
deriving DecidableEq, Repr

/-- The agreed no-data sentinel `-9999.0` of the product pipeline. -/
def noData : F := F.val (-9999)

/-- `np.isnan` on one element. -/
def F.isNaN : F → Bool
  | .nan => true
  | _ => false

/-- `np.isinf` on one element (true for both infinities). -/
def F.isInf : F → Bool
  | .inf => true
  | .ninf => true
  | _ => false

/-- IEEE addition on extended values. -/
def F.add : F → F → F
  | .nan, _ => .nan
  | _, .nan => .nan
  | .inf, .ninf => .nan
  | .ninf, .inf => .nan
  | .inf, _ => .inf
  | _, .inf => .inf
  | .ninf, _ => .ninf
  | _, .ninf => .ninf
  | .val a, .val b => .val (a + b)

/-- IEEE negation on extended values. -/
def F.neg : F → F
  | .nan => .nan
  | .inf => .ninf
  | .ninf => .inf
  | .val a => .val (-a)

/-- IEEE subtraction on extended values. -/
def F.sub (x y : F) : F := F.add x (F.neg y)

/-- IEEE multiplication on extended values. -/
def F.mul : F → F → F
  | .nan, _ => .nan
  | _, .nan => .nan
  | .inf, .inf => .inf
  | .inf, .ninf => .ninf
  | .ninf, .inf => .ninf
  | .ninf, .ninf => .inf
  | .inf, .val b => if b = 0 then .nan else if 0 < b then .inf else .ninf
  | .ninf, .val b => if b = 0 then .nan else if 0 < b then .ninf else .inf
  | .val a, .inf => if a = 0 then .nan else if 0 < a then .inf else .ninf
  | .val a, .ninf => if a = 0 then .nan else if 0 < a then .ninf else .inf
  | .val a, .val b => .val (a * b)

/-- IEEE division on extended values: `0/0` is NaN, `a/0` for `a ≠ 0` is a
signed infinity (the sign of a numpy zero denominator is treated as
positive), division of a finite value by an infinity is `0`. -/
def F.div : F → F → F
  | .nan, _ => .nan
  | _, .nan => .nan
  | .inf, .inf => .nan
  | .inf, .ninf => .nan
  | .ninf, .inf => .nan
  | .ninf, .ninf => .nan
  | .inf, .val b => if 0 ≤ b then .inf else .ninf
  | .ninf, .val b => if 0 ≤ b then .ninf else .inf
  | .val _, .inf => .val 0
  | .val _, .ninf => .val 0
  | .val a, .val b =>
    if b = 0 then (if a = 0 then .nan else if 0 < a then .inf else .ninf)
    else .val (a / b)

/-- numpy `>` on one element: comparisons involving NaN are false. -/
def F.fgt : F → F → Bool
  | .nan, _ => false
  | _, .nan => false
  | .inf, .inf => false
  | .inf, _ => true
  | .ninf, _ => false
  | .val _, .inf => false
  | .val _, .ninf => true
  | .val a, .val b => decide (b < a)

/-- numpy `<` on one element: comparisons involving NaN are false. -/
def F.flt : F → F → Bool
  | .nan, _ => false
  | _, .nan => false
  | .inf, _ => false
  | .ninf, .ninf => false
  | .ninf, _ => true
  | .val _, .inf => true
  | .val _, .ninf => false
  | .val a, .val b => decide (a < b)

/-- A raster band / computed index as a float32 grid, indexed by flattened
pixel position. -/
def Grid := Nat → F

/-- One element of a numpy mask assignment `A[cond] = -9999.0`: the new
element value is the sentinel where the mask holds and the old value
elsewhere. -/
def maskAssign (c : Bool) (x : F) : F := if c then noData else x

/-- The scaling divisor `10000` applied to every raw band. -/
def f10000 : F := F.val 10000

/-- `calculateEVI` of `Sentinel2/A1_sentinel2_products.py`:
`EVI = 2.5*(((B08/10000)-(B04/10000)) / (((B08/10000)+6.0*(B04/10000)-7.5*(B02/10000))+1))`
followed by the mask assignments for NaN, infinity, zero input bands, and
the domain clamps at `1.25` and `-1`. -/
def calculateEVI (B08 B04 B02 : Grid) : Grid := fun i =>
  let EVI := F.mul (F.val (5/2))
    (F.div (F.sub (F.div (B08 i) f10000) (F.div (B04 i) f10000))
      (F.add
        (F.sub (F.add (F.div (B08 i) f10000) (F.mul (F.val 6) (F.div (B04 i) f10000)))
          (F.mul (F.val (15/2)) (F.div (B02 i) f10000)))
        (F.val 1)))
  let EVI := maskAssign EVI.isNaN EVI
  let EVI := maskAssign EVI.isInf EVI
  let EVI := maskAssign (B08 i == F.val 0) EVI
  let EVI := maskAssign (B04 i == F.val 0) EVI
  let EVI := maskAssign (B02 i == F.val 0) EVI
  let EVI := maskAssign (F.fgt EVI (F.val (5/4))) EVI
  let EVI := maskAssign (F.flt EVI (F.val (-1))) EVI
  EVI

/-- `calculateNDMI` of `Sentinel2/A1_sentinel2_products.py`:
`NDMI = ((B8A/10000)-(B11/10000)) / ((B8A/10000)+(B11/10000))` followed by
the mask assignments for NaN, infinity, zero input bands, and the domain
clamps at `1` and `-1`. -/
def calculateNDMI (B8A B11 : Grid) : Grid := fun i =>
  let NDMI := F.div (F.sub (F.div (B8A i) f10000) (F.div (B11 i) f10000))
    (F.add (F.div (B8A i) f10000) (F.div (B11 i) f10000))
  let NDMI := maskAssign NDMI.isNaN NDMI
  let NDMI := maskAssign NDMI.isInf NDMI
  let NDMI := maskAssign (B8A i == F.val 0) NDMI
  let NDMI := maskAssign (B11 i == F.val 0) NDMI
  let NDMI := maskAssign (F.fgt NDMI (F.val 1)) NDMI
  let NDMI := maskAssign (F.flt NDMI (F.val (-1))) NDMI
  NDMI

/-- `calculateNDWI` of `Sentinel2/A1_sentinel2_products.py`:
`NDWI = ((B03/10000)-(B08/10000)) / ((B03/10000)+(B08/10000))` followed by
the mask assignments for NaN, infinity, zero input bands, and the domain
clamps at `1` and `-1`. -/
def calculateNDWI (B03 B08 : Grid) : Grid := fun i =>
  let NDWI := F.div (F.sub (F.div (B03 i) f10000) (F.div (B08 i) f10000))
    (F.add (F.div (B03 i) f10000) (F.div (B08 i) f10000))
  let NDWI := maskAssign NDWI.isNaN NDWI
  let NDWI := maskAssign NDWI.isInf NDWI
  let NDWI := maskAssign (B03 i == F.val 0) NDWI
  let NDWI := maskAssign (B08 i == F.val 0) NDWI
  let NDWI := maskAssign (F.fgt NDWI (F.val 1)) NDWI
  let NDWI := maskAssign (F.flt NDWI (F.val (-1))) NDWI
  NDWI

/-- `calculateNDVI` of `Sentinel2/A1_sentinel2_products.py`:
`NDVI = ((B08/10000)-(B04/10000)) / ((B08/10000)+(B04/10000))` followed by
the mask assignments for NaN, infinity, zero input bands (B04 first, then
B08, as in the source), and the domain clamps at `1` and `-1`. -/
def calculateNDVI (B08 B04 : Grid) : Grid := fun i =>
  let NDVI := F.div (F.sub (F.div (B08 i) f10000) (F.div (B04 i) f10000))
    (F.add (F.div (B08 i) f10000) (F.div (B04 i) f10000))
  let NDVI := maskAssign NDVI.isNaN NDVI
  let NDVI := maskAssign NDVI.isInf NDVI
  let NDVI := maskAssign (B04 i == F.val 0) NDVI
  let NDVI := maskAssign (B08 i == F.val 0) NDVI
  let NDVI := maskAssign (F.fgt NDVI (F.val 1)) NDVI
  let NDVI := maskAssign (F.flt NDVI (F.val (-1))) NDVI
  NDVI

/-- Membership of an output value in a closed interval of finite values
(false for NaN and the infinities). -/
def inDomainB (lo hi : ℚ) : F → Bool
  | .val q => decide (lo ≤ q) && decide (q ≤ hi)
  | _ => false

lemma maskAssign_noData (c : Bool) : maskAssign c noData = noData := by
  cases c <;> rfl

lemma maskAssign_true (x : F) : maskAssign true x = noData := rfl

lemma maskAssign_false (x : F) : maskAssign false x = x := rfl

/-- Once any mask of the post-processing chain has fired, the clamping
steps keep the sentinel; and a value surviving all masks lies in the
clamped domain.  Stated over the generic chain common to the four
calculators (`z1 z2 z3` are the zero-band masks). -/
lemma mask_chain_sound (x : F) (z1 z2 z3 : Bool) (lo hi : ℚ)
    (hlo : (-9999 : ℚ) < lo) :
    (inDomainB lo hi
        (maskAssign
          (F.flt
            (maskAssign
              (F.fgt (maskAssign z3 (maskAssign z2 (maskAssign z1
                (maskAssign (maskAssign x.isNaN x).isInf (maskAssign x.isNaN x)))))
                (F.val hi))
              (maskAssign z3 (maskAssign z2 (maskAssign z1
                (maskAssign (maskAssign x.isNaN x).isInf (maskAssign x.isNaN x))))))
            (F.val lo))
          (maskAssign
            (F.fgt (maskAssign z3 (maskAssign z2 (maskAssign z1
              (maskAssign (maskAssign x.isNaN x).isInf (maskAssign x.isNaN x)))))
              (F.val hi))
            (maskAssign z3 (maskAssign z2 (maskAssign z1
              (maskAssign (maskAssign x.isNaN x).isInf (maskAssign x.isNaN x))))))) = true
      ∨ (maskAssign
          (F.flt
            (maskAssign
              (F.fgt (maskAssign z3 (maskAssign z2 (maskAssign z1
                (maskAssign (maskAssign x.isNaN x).isInf (maskAssign x.isNaN x)))))
                (F.val hi))
              (maskAssign z3 (maskAssign z2 (maskAssign z1
                (maskAssign (maskAssign x.isNaN x).isInf (maskAssign x.isNaN x))))))
            (F.val lo))
          (maskAssign
            (F.fgt (maskAssign z3 (maskAssign z2 (maskAssign z1
              (maskAssign (maskAssign x.isNaN x).isInf (maskAssign x.isNaN x)))))
              (F.val hi))
            (maskAssign z3 (maskAssign z2 (maskAssign z1
              (maskAssign (maskAssign x.isNaN x).isInf (maskAssign x.isNaN x))))))) = noData) := by
  have hsent : ∀ c2 : Bool, maskAssign (F.flt (maskAssign c2 noData) (F.val lo))
      (maskAssign c2 noData) = noData := by
    intro c2; rw [maskAssign_noData, maskAssign_noData]
  -- reduce to the value `e` obtained after the NaN/Inf/zero masks
  set e := maskAssign z3 (maskAssign z2 (maskAssign z1
    (maskAssign (maskAssign x.isNaN x).isInf (maskAssign x.isNaN x)))) with he
  have hval : e = noData ∨ ∃ q : ℚ, e = F.val q := by
    rcases x with _ | _ | _ | q
    · left
      simp [he, F.isNaN, maskAssign_true, maskAssign_noData]
    · left
      simp [he, F.isNaN, F.isInf, maskAssign_false, maskAssign_true, maskAssign_noData]
    · left
      simp [he, F.isNaN, F.isInf, maskAssign_false, maskAssign_true, maskAssign_noData]
    · rcases z1 with _ | _
      · rcases z2 with _ | _
        · rcases z3 with _ | _
          · right
            exact ⟨q, by simp [he, F.isNaN, F.isInf, maskAssign_false]⟩
          · left
            simp [he, maskAssign_true]
        · left
          simp [he, maskAssign_true, maskAssign_noData]
      · left
        simp [he, maskAssign_true, maskAssign_noData]
  rcases hval with h | ⟨q, h⟩
  · rw [h]
    right
    rcases hgt : F.fgt noData (F.val hi) with _ | _
    · rw [maskAssign_false]
      have : F.flt noData (F.val lo) = true := by
        simp [noData, F.flt]
        linarith
      rw [this, maskAssign_true]
    · rw [maskAssign_true, maskAssign_noData]
  · rw [h]
    rcases hgt : F.fgt (F.val q) (F.val hi) with _ | _
    · rw [maskAssign_false]
      rcases hlt : F.flt (F.val q) (F.val lo) with _ | _
      · rw [maskAssign_false]
        left
        simp [F.fgt] at hgt
        simp [F.flt] at hlt
        simp [inDomainB]
        exact ⟨hlt, hgt⟩
      · rw [maskAssign_true]
        right
        rfl
    · rw [maskAssign_true, maskAssign_noData]
      right
      rfl

/-- If one of the zero-band masks fires, the chain ends in the sentinel. -/
lemma mask_chain_zero (x : F) (z1 z2 z3 : Bool)
    (hz : z1 = true ∨ z2 = true ∨ z3 = true) (lo hi : ℚ)
    (hlo : (-9999 : ℚ) < lo) :
    maskAssign
      (F.flt
        (maskAssign
          (F.fgt (maskAssign z3 (maskAssign z2 (maskAssign z1
            (maskAssign (maskAssign x.isNaN x).isInf (maskAssign x.isNaN x)))))
            (F.val hi))
          (maskAssign z3 (maskAssign z2 (maskAssign z1
            (maskAssign (maskAssign x.isNaN x).isInf (maskAssign x.isNaN x))))))
        (F.val lo))
      (maskAssign
        (F.fgt (maskAssign z3 (maskAssign z2 (maskAssign z1
          (maskAssign (maskAssign x.isNaN x).isInf (maskAssign x.isNaN x)))))
          (F.val hi))
        (maskAssign z3 (maskAssign z2 (maskAssign z1
          (maskAssign (maskAssign x.isNaN x).isInf (maskAssign x.isNaN x))))))
      = noData := by
  have he : maskAssign z3 (maskAssign z2 (maskAssign z1
      (maskAssign (maskAssign x.isNaN x).isInf (maskAssign x.isNaN x)))) = noData := by
    rcases hz with h | h | h
    · rw [h, maskAssign_true, maskAssign_noData, maskAssign_noData]
    · rw [h, maskAssign_true, maskAssign_noData]
    · rw [h, maskAssign_true]
  rw [he]
  rcases hgt : F.fgt noData (F.val hi) with _ | _
  · rw [maskAssign_false]
    have : F.flt noData (F.val lo) = true := by
      simp [noData, F.flt]
      linarith
    rw [this, maskAssign_true]
  · rw [maskAssign_true, maskAssign_noData]

/-- Two-mask variant of `mask_chain_sound`, matching the NDMI/NDWI/NDVI
post-processing chains. -/
lemma mask_chain_sound2 (x : F) (z1 z2 : Bool) (lo hi : ℚ)
    (hlo : (-9999 : ℚ) < lo) :
    (inDomainB lo hi
        (maskAssign
          (F.flt
            (maskAssign
              (F.fgt (maskAssign z2 (maskAssign z1
                (maskAssign (maskAssign x.isNaN x).isInf (maskAssign x.isNaN x))))
                (F.val hi))
              (maskAssign z2 (maskAssign z1
                (maskAssign (maskAssign x.isNaN x).isInf (maskAssign x.isNaN x)))))
            (F.val lo))
          (maskAssign
            (F.fgt (maskAssign z2 (maskAssign z1
              (maskAssign (maskAssign x.isNaN x).isInf (maskAssign x.isNaN x))))
              (F.val hi))
            (maskAssign z2 (maskAssign z1
              (maskAssign (maskAssign x.isNaN x).isInf (maskAssign x.isNaN x)))))) = true
      ∨ (maskAssign
          (F.flt
            (maskAssign
              (F.fgt (maskAssign z2 (maskAssign z1
                (maskAssign (maskAssign x.isNaN x).isInf (maskAssign x.isNaN x))))
                (F.val hi))
              (maskAssign z2 (maskAssign z1
                (maskAssign (maskAssign x.isNaN x).isInf (maskAssign x.isNaN x)))))
            (F.val lo))
          (maskAssign
            (F.fgt (maskAssign z2 (maskAssign z1
              (maskAssign (maskAssign x.isNaN x).isInf (maskAssign x.isNaN x))))
              (F.val hi))
            (maskAssign z2 (maskAssign z1
              (maskAssign (maskAssign x.isNaN x).isInf (maskAssign x.isNaN x)))))) = noData) :=
  mask_chain_sound x false z1 z2 lo hi hlo

/-- Two-mask variant of `mask_chain_zero`, matching the NDMI/NDWI/NDVI
post-processing chains. -/
lemma mask_chain_zero2 (x : F) (z1 z2 : Bool)
    (hz : z1 = true ∨ z2 = true) (lo hi : ℚ) (hlo : (-9999 : ℚ) < lo) :
    maskAssign
      (F.flt
        (maskAssign
          (F.fgt (maskAssign z2 (maskAssign z1
            (maskAssign (maskAssign x.isNaN x).isInf (maskAssign x.isNaN x))))
            (F.val hi))
          (maskAssign z2 (maskAssign z1
            (maskAssign (maskAssign x.isNaN x).isInf (maskAssign x.isNaN x)))))
        (F.val lo))
      (maskAssign
        (F.fgt (maskAssign z2 (maskAssign z1
          (maskAssign (maskAssign x.isNaN x).isInf (maskAssign x.isNaN x))))
          (F.val hi))
        (maskAssign z2 (maskAssign z1
          (maskAssign (maskAssign x.isNaN x).isInf (maskAssign x.isNaN x)))))
      = noData :=
  mask_chain_zero x false z1 z2 (Or.inr hz) lo hi hlo

/-- A value that is either in a finite closed domain or equal to the
sentinel is neither NaN nor infinite. -/
lemma domain_or_sentinel_not_special (lo hi : ℚ) (y : F)
    (h : inDomainB lo hi y = true ∨ y = noData) :
    y.isNaN = false ∧ y.isInf = false := by
  rcases y with _ | _ | _ | q
  · rcases h with h | h <;> simp [inDomainB, noData] at h
  · rcases h with h | h <;> simp [inDomainB, noData] at h
  · rcases h with h | h <;> simp [inDomainB, noData] at h
  · exact ⟨rfl, rfl⟩

/-- C1: for every one of the four index calculators and all input grids,
at every pixel where any contributing raw input band equals exactly 0, the
returned grid holds the sentinel -9999.0 at that pixel. -/
theorem zero_band_forces_sentinel (B08 B04 B02 B8A B11 B03 : Grid) (i : Nat) :
    ((B08 i = F.val 0 ∨ B04 i = F.val 0 ∨ B02 i = F.val 0) →
        calculateEVI B08 B04 B02 i = noData)
    ∧ ((B8A i = F.val 0 ∨ B11 i = F.val 0) → calculateNDMI B8A B11 i = noData)
    ∧ ((B03 i = F.val 0 ∨ B08 i = F.val 0) → calculateNDWI B03 B08 i = noData)
    ∧ ((B08 i = F.val 0 ∨ B04 i = F.val 0) → calculateNDVI B08 B04 i = noData) := by
  refine ⟨fun h => ?_, fun h => ?_, fun h => ?_, fun h => ?_⟩
  · exact mask_chain_zero _ _ _ _
      (by rcases h with h | h | h <;> simp [h]) (-1) (5/4) (by norm_num)
  · exact mask_chain_zero2 _ _ _
      (by rcases h with h | h <;> simp [h]) (-1) 1 (by norm_num)
  · exact mask_chain_zero2 _ _ _
      (by rcases h with h | h <;> simp [h]) (-1) 1 (by norm_num)
  · exact mask_chain_zero2 _ _ _
      (by rcases h with h | h <;> simp [h]) (-1) 1 (by norm_num)

/-- Witness for C1: concrete zero-band inputs produce the sentinel in all
four calculators. -/
theorem zero_band_forces_sentinel_witness :
    calculateEVI (fun _ => F.val 0) (fun _ => F.val 7) (fun _ => F.val 7) 0 = noData
    ∧ calculateNDMI (fun _ => F.val 0) (fun _ => F.val 7) 0 = noData
    ∧ calculateNDWI (fun _ => F.val 7) (fun _ => F.val 0) 0 = noData
    ∧ calculateNDVI (fun _ => F.val 0) (fun _ => F.val 7) 0 = noData := by
  have h := zero_band_forces_sentinel (fun _ => F.val 0) (fun _ => F.val 7)
    (fun _ => F.val 7) (fun _ => F.val 0) (fun _ => F.val 7) (fun _ => F.val 7) 0
  exact ⟨h.1 (Or.inl rfl), h.2.1 (Or.inl rfl), h.2.2.1 (Or.inr rfl), h.2.2.2 (Or.inl rfl)⟩

/-- C2: every pixel of a calculator's output lies in the stated valid
domain or equals the sentinel (EVI in [-1, 5/4]; NDMI/NDWI/NDVI in
[-1, 1]); in particular no NaN and no infinity ever appears in any
calculator's output. -/
theorem calculator_output_domain (B08 B04 B02 B8A B11 B03 : Grid) (i : Nat) :
    ((inDomainB (-1) (5/4) (calculateEVI B08 B04 B02 i) = true
        ∨ calculateEVI B08 B04 B02 i = noData)
      ∧ (calculateEVI B08 B04 B02 i).isNaN = false
      ∧ (calculateEVI B08 B04 B02 i).isInf = false)
    ∧ ((inDomainB (-1) 1 (calculateNDMI B8A B11 i) = true
        ∨ calculateNDMI B8A B11 i = noData)
      ∧ (calculateNDMI B8A B11 i).isNaN = false
      ∧ (calculateNDMI B8A B11 i).isInf = false)
    ∧ ((inDomainB (-1) 1 (calculateNDWI B03 B08 i) = true
        ∨ calculateNDWI B03 B08 i = noData)
      ∧ (calculateNDWI B03 B08 i).isNaN = false
      ∧ (calculateNDWI B03 B08 i).isInf = false)
    ∧ ((inDomainB (-1) 1 (calculateNDVI B08 B04 i) = true
        ∨ calculateNDVI B08 B04 i = noData)
      ∧ (calculateNDVI B08 B04 i).isNaN = false
      ∧ (calculateNDVI B08 B04 i).isInf = false) := by
  have h1 : inDomainB (-1) (5/4) (calculateEVI B08 B04 B02 i) = true
      ∨ calculateEVI B08 B04 B02 i = noData :=
    mask_chain_sound _ _ _ _ (-1) (5/4) (by norm_num)
  have h2 : inDomainB (-1) 1 (calculateNDMI B8A B11 i) = true
      ∨ calculateNDMI B8A B11 i = noData :=
    mask_chain_sound2 _ _ _ (-1) 1 (by norm_num)
  have h3 : inDomainB (-1) 1 (calculateNDWI B03 B08 i) = true
      ∨ calculateNDWI B03 B08 i = noData :=
    mask_chain_sound2 _ _ _ (-1) 1 (by norm_num)
  have h4 : inDomainB (-1) 1 (calculateNDVI B08 B04 i) = true
      ∨ calculateNDVI B08 B04 i = noData :=
    mask_chain_sound2 _ _ _ (-1) 1 (by norm_num)
  exact ⟨⟨h1, domain_or_sentinel_not_special _ _ _ h1⟩,
    ⟨h2, domain_or_sentinel_not_special _ _ _ h2⟩,
    ⟨h3, domain_or_sentinel_not_special _ _ _ h3⟩,
    ⟨h4, domain_or_sentinel_not_special _ _ _ h4⟩⟩

/-- C9: for constant input grids with NIR = 8000 and RED = 2000,
`calculateNDVI` returns 0.6 (= 3/5) at every pixel: the scaled computation
(0.8 - 0.2) / (0.8 + 0.2), neither masked nor clamped. -/
theorem ndvi_constant_scenario (i : Nat) :
    calculateNDVI (fun _ => F.val 8000) (fun _ => F.val 2000) i = F.val (3/5) := by
  have h1 : F.div (F.val 8000) f10000 = F.val (4/5) := by
    simp only [F.div, f10000]
    norm_num
  have h2 : F.div (F.val 2000) f10000 = F.val (1/5) := by
    simp only [F.div, f10000]
    norm_num
  have h3 : F.sub (F.val (4/5)) (F.val (1/5)) = F.val (3/5) := by
    simp only [F.sub, F.neg, F.add]
    norm_num
  have h4 : F.add (F.val (4/5)) (F.val (1/5)) = F.val 1 := by
    simp only [F.add]
    norm_num
  have h5 : F.div (F.val (3/5)) (F.val 1) = F.val (3/5) := by
    simp only [F.div]
    norm_num
  have z1 : ((F.val 2000 : F) == F.val 0) = false := by
    have hne : (F.val 2000 : F) ≠ F.val 0 := by
      intro h
      injection h with h
      norm_num at h
    simp [hne]
  have z2 : ((F.val 8000 : F) == F.val 0) = false := by
    have hne : (F.val 8000 : F) ≠ F.val 0 := by
      intro h
      injection h with h
      norm_num at h
    simp [hne]
  have g1 : F.fgt (F.val (3/5)) (F.val 1) = false := by
    simp only [F.fgt, decide_eq_false_iff_not]
    norm_num
  have g2 : F.flt (F.val (3/5)) (F.val (-1)) = false := by
    simp only [F.flt, decide_eq_false_iff_not]
    norm_num
  simp only [calculateNDVI, h1, h2, h3, h4, h5, z1, z2, g1, g2, F.isNaN,
    maskAssign_false, F.isInf]

/-! ## Path resolution (`getRequiredBandsPaths`)

The raw-input directory tree for one date is modelled by a list of
`SafeFolder`s (the result of `os.listdir(rawBandFolder)`), each carrying
the outcome of the two nested directory listings the source performs:
`granuleSub` is `os.listdir(granuleFolder)[0]` (`none` when that listing
raises or is empty, which the source catches and turns into a `break`),
and `imgBands` is the listing of `IMG_DATA/<resolution>` (`none` when that
listing raises, which the source does not catch).  `Except.error ()`
models an exception escaping `getRequiredBandsPaths` to its caller. -/

/-- One `.SAFE` directory of a date folder, with the outcomes of the
directory listings performed below it. -/
structure SafeFolder where
  name : String
  granuleSub : Option String
  imgBands : Option (List String)
deriving DecidableEq, Repr

/-- One per-granule entry of the `processingPaths` dict: for every required
band code the resolved raw path (`none` models the `{}` placeholder left
when no raw file matched), and the `outFolder` / `outName` keys (`none`
models the key being absent because no band matched at all). -/
structure Entry where
  bands : List (String × Option String)
  outFolder : Option String
  outName : Option String
deriving DecidableEq, Repr

/-- `os.path.join` on two components. -/
def joinPath (a b : String) : String := a ++ "/" ++ b

/-- Splitting a character list on `'_'`, mirroring Python `str.split("_")`
(an empty input yields one empty token). -/
def splitChars : List Char → List Char → List (List Char)
  | [], cur => [cur.reverse]
  | c :: rest, cur =>
    if c = '_' then cur.reverse :: splitChars rest []
    else splitChars rest (c :: cur)

/-- Python `s.split("_")`. -/
def splitU (s : String) : List String := (splitChars s.data []).map String.mk

/-- `s.split("_")[n]` as an optional token (`none` models `IndexError`). -/
def tok (s : String) (n : Nat) : Option String := (splitU s).get? n

/-- The output tile name `f"{t0}_{t1}_{product}_{ii}.tif"` built from the
first two underscore tokens of a matched raw band file name. -/
def mkOutName (rawBand product : String) (ii : Nat) : String :=
  (splitU rawBand).getD 0 "" ++ "_" ++ (splitU rawBand).getD 1 ""
    ++ "_" ++ product ++ "_" ++ toString ii ++ ".tif"

/-- Inner loop of `getRequiredBandsPaths` for one required band code: scan
all raw band files, keep the last whose third underscore token equals the
code, updating the band path and the entry's `outFolder`/`outName` on each
match; a raw file with fewer than three tokens raises (uncaught). -/
def scanCode (pathToRaw product imageryDate outRoot : String) (ii : Nat) (code : String) :
    List String → Option String × Option String × Option String →
    Except Unit (Option String × Option String × Option String)
  | [], acc => Except.ok acc
  | rawBand :: rest, (bp, ofo, onm) =>
    match tok rawBand 2 with
    | none => Except.error ()
    | some t =>
      if t = code then
        scanCode pathToRaw product imageryDate outRoot ii code rest
          (some (joinPath pathToRaw rawBand),
            some (joinPath (joinPath outRoot imageryDate) product),
            some (mkOutName rawBand product ii))
      else
        scanCode pathToRaw product imageryDate outRoot ii code rest (bp, ofo, onm)

/-- Build one granule's `processingPaths[ii]` entry by iterating the
required band codes, carrying the shared `outFolder`/`outName` slots. -/
def buildEntry (pathToRaw product imageryDate outRoot : String) (ii : Nat)
    (rawBands : List String) :
    List String → List (String × Option String) × Option String × Option String →
    Except Unit Entry
  | [], (bandsAcc, ofo, onm) => Except.ok { bands := bandsAcc, outFolder := ofo, outName := onm }
  | code :: rest, (bandsAcc, ofo, onm) =>
    match scanCode pathToRaw product imageryDate outRoot ii code rawBands (none, ofo, onm) with
    | Except.error u => Except.error u
    | Except.ok (bp, ofo2, onm2) =>
      buildEntry pathToRaw product imageryDate outRoot ii rawBands rest
        (bandsAcc ++ [(code, bp)], ofo2, onm2)

/-- The `.SAFE`-folder loop of `getRequiredBandsPaths`: a granule whose
`GRANULE` directory cannot be listed (or is empty) is logged and `break`s
out of the loop, returning the entries accumulated so far; a failure
listing `IMG_DATA/<resolution>` or parsing a file name raises. -/
def resolveGranules (product imageryDate : String) (requiredBands : List String)
    (rawInput outRoot resolution : String) :
    List SafeFolder → Nat → List Entry → Except Unit (List Entry)
  | [], _, acc => Except.ok acc
  | sf :: rest, ii, acc =>
    match sf.granuleSub with
    | none => Except.ok acc
    | some fFolder =>
      match sf.imgBands with
      | none => Except.error ()
      | some rawBands =>
        match buildEntry
            (joinPath (joinPath (joinPath (joinPath (joinPath
              (joinPath rawInput imageryDate) sf.name) "GRANULE") fFolder) "IMG_DATA") resolution)
            product imageryDate outRoot ii rawBands requiredBands ([], none, none) with
        | Except.error u => Except.error u
        | Except.ok e =>
          resolveGranules product imageryDate requiredBands rawInput outRoot resolution
            rest (ii + 1) (acc ++ [e])

/-- `getRequiredBandsPaths` of `Sentinel2/A1_sentinel2_products.py`:
`rawTree` is the listing of `rawInput/<imageryDate>` (`none` when that
listing raises, uncaught); `requiredBands` carries the band codes (the
values of the product's required-bands mapping, in iteration order). -/
def getRequiredBandsPaths (product imageryDate : String) (requiredBands : List String)
    (rawInput outRoot resolution : String) (rawTree : Option (List SafeFolder)) :
    Except Unit (List Entry) :=
  match rawTree with
  | none => Except.error ()
  | some safeFolders =>
    resolveGranules product imageryDate requiredBands rawInput outRoot resolution
      safeFolders 0 []

/-- A granule whose `GRANULE` directory listing fails only breaks the
loop: everything accumulated before it is returned unchanged. -/
lemma resolveGranules_break (product imageryDate : String) (requiredBands : List String)
    (rawInput outRoot resolution : String) (sf : SafeFolder) (post : List SafeFolder)
    (hsf : sf.granuleSub = none) :
    ∀ (pre : List SafeFolder) (ii : Nat) (acc l : List Entry),
      resolveGranules product imageryDate requiredBands rawInput outRoot resolution
          pre ii acc = Except.ok l →
      resolveGranules product imageryDate requiredBands rawInput outRoot resolution
          (pre ++ sf :: post) ii acc = Except.ok l := by
  intro pre
  induction pre with
  | nil =>
    intro ii acc l h
    simp only [resolveGranules] at h
    cases h
    simp only [List.nil_append, resolveGranules, hsf]
  | cons sf2 pre2 ih =>
    intro ii acc l h
    simp only [List.cons_append, resolveGranules] at h ⊢
    cases hg : sf2.granuleSub with
    | none =>
      rw [hg] at h
      dsimp only at h ⊢
      exact h
    | some fFolder =>
      rw [hg] at h
      dsimp only at h ⊢
      cases hi : sf2.imgBands with
      | none =>
        rw [hi] at h
        dsimp only at h
        exact absurd h (by simp)
      | some rawBands =>
        rw [hi] at h
        dsimp only at h ⊢
        cases hb : buildEntry
            (joinPath (joinPath (joinPath (joinPath (joinPath
              (joinPath rawInput imageryDate) sf2.name) "GRANULE") fFolder) "IMG_DATA") resolution)
            product imageryDate outRoot ii rawBands requiredBands ([], none, none) with
        | error u =>
          rw [hb] at h
          dsimp only at h
          exact absurd h (by simp)
        | ok e =>
          rw [hb] at h
          dsimp only at h ⊢
          exact ih _ _ _ h

/-- A `.SAFE` folder that resolves one matched band file. -/
def sfOkC5 : SafeFolder :=
  { name := "A.SAFE", granuleSub := some "L2A",
    imgBands := some ["T33_20200505T1_B08_10m.jp2"] }

/-- A `.SAFE` folder whose `GRANULE` directory cannot be listed. -/
def sfBadC5 : SafeFolder := { name := "B.SAFE", granuleSub := none, imgBands := some [] }

/-- The entry resolved for `sfOkC5`. -/
def entryC5 : Entry :=
  { bands := [("B08", some "raw/20200505/A.SAFE/GRANULE/L2A/IMG_DATA/R10m/T33_20200505T1_B08_10m.jp2")],
    outFolder := some "out/20200505/NDVI",
    outName := some "T33_20200505T1_NDVI_0.tif" }

/-- Counterexample to C5: with a listable first granule and a second
granule whose `GRANULE` directory cannot be listed, `getRequiredBandsPaths`
does NOT return an empty result: the first granule's `ProcessingPath`
entry is returned (a partial result), contradicting "no partial results
(no ProcessingPath entries from earlier granules are returned)". -/
theorem partial_results_returned_on_granule_failure :
    sfBadC5.granuleSub = none
    ∧ getRequiredBandsPaths "NDVI" "20200505" ["B08"] "raw" "out" "R10m"
        (some [sfOkC5, sfBadC5]) = Except.ok [entryC5]
    ∧ ([entryC5] : List Entry) ≠ [] := by
  exact ⟨rfl, rfl, by simp⟩

/-- C5 (amended): if any granule's `GRANULE` directory cannot be listed,
path resolution for the date aborts at that granule — granules after it
contribute nothing — but the entries already resolved for earlier granules
ARE returned, and no exception is raised (the failure is logged; the
multi-product run is not aborted). -/
theorem granule_listing_failure_returns_prefix (product imageryDate : String)
    (requiredBands : List String) (rawInput outRoot resolution : String)
    (pre post : List SafeFolder) (sf : SafeFolder) (l : List Entry)
    (hsf : sf.granuleSub = none)
    (h : getRequiredBandsPaths product imageryDate requiredBands rawInput outRoot resolution
        (some pre) = Except.ok l) :
    getRequiredBandsPaths product imageryDate requiredBands rawInput outRoot resolution
        (some (pre ++ sf :: post)) = Except.ok l := by
  simp only [getRequiredBandsPaths] at h ⊢
  exact resolveGranules_break product imageryDate requiredBands rawInput outRoot resolution
    sf post hsf pre 0 [] l h

/-- Witness for the amended C5 at the concrete two-granule input. -/
theorem granule_listing_failure_returns_prefix_witness :
    getRequiredBandsPaths "NDVI" "20200505" ["B08"] "raw" "out" "R10m"
        (some ([sfOkC5] ++ sfBadC5 :: [])) = Except.ok [entryC5] :=
  granule_listing_failure_returns_prefix "NDVI" "20200505" ["B08"] "raw" "out" "R10m"
    [sfOkC5] [] sfBadC5 [entryC5] rfl rfl

/-! ## Orchestration (`calculateProducts` and the driver loop)

External raster operations (GDAL open / memory raster / warp / VRT build)
and directory creation are abstracted by an environment recording whether
each operation succeeds; the Python-level side effects relevant to the
claims (files written, bands opened, indices computed, memory rasters
created, warps and VRT builds attempted) are recorded in a trace.  The
function-scoped Python locals that survive across loop iterations —
`requiredInputOutputPaths`, `outName` and `resultRaster` — are part of the
threaded state, with `none`/`false` modelling the unbound state whose use
raises `NameError` (an uncaught exception, `Except.error`). -/

/-- One configured product: its dict key, `name`, `resolution`, and the
band codes of its `bands` mapping in iteration order. -/
structure ProductCfg where
  pid : String
  name : String
  resolution : String
  bands : List String
deriving DecidableEq, Repr

/-- Observable events of one run. -/
structure Trace where
  openAttempts : List (Option String)
  calcs : List String
  memCreates : List String
  warpAttempts : List String
  vrtCalls : List (String × List String)
deriving DecidableEq, Repr

/-- Threaded run state: the files on disk plus the function-scoped locals
of `calculateProducts` (`paths` = `requiredInputOutputPaths`, `outName`,
`resultRaster`; `none`/`false` = not yet bound) and the event trace. -/
structure St where
  fs : List String
  paths : Option (List Entry)
  outName : Option String
  resultRaster : Bool
  trace : Trace
deriving DecidableEq, Repr

/-- The per-product entry of the `newProducts` dict: `name` is always set
(line 240 of the source); `newDate` only after a successful mosaic build. -/
structure ProdRecord where
  name : String
  newDate : Option String
deriving DecidableEq, Repr

/-- Environment: configuration plus the outcome of every external
operation. -/
structure Env where
  rawInput : String
  productOutput : String
  products : List ProductCfg
  rawTree : Option (List SafeFolder)
  initialFS : List String
  openOk : String → Bool
  calcFails : String → Bool
  memFails : String → Bool
  warpOk : String → Bool
  mkdirOk : String → Bool
  vrtOk : String → Bool

/-- The band codes each product block opens, in source order (the NDVI
block opens B04 before B08). -/
def bandOpenList : String → List String
  | "EVI" => ["B08", "B04", "B02"]
  | "NDMI" => ["B8A", "B11"]
  | "NDWI" => ["B03", "B08"]
  | "NDVI" => ["B04", "B08"]
  | _ => []

/-- Open the required bands of one tile in order.  A band code missing
from the entry raises (the `KeyError` recurs inside the logging f-string
of the `except` handler, so it escapes); an unresolved `{}` placeholder or
a failing `openRasterOneBand` is caught and the tile is skipped (`false`).
Every call of `openRasterOneBand` is recorded, `none` standing for the
`{}` placeholder argument. -/
def openBands (env : Env) (e : Entry) : List String → St → Except Unit (Bool × St)
  | [], st => Except.ok (true, st)
  | c :: cs, st =>
    match e.bands.lookup c with
    | none => Except.error ()
    | some bp =>
      match bp with
      | none =>
        Except.ok (false,
          { st with trace := { st.trace with openAttempts := st.trace.openAttempts ++ [none] } })
      | some p =>
        if env.openOk p then
          openBands env e cs
            { st with trace := { st.trace with openAttempts := st.trace.openAttempts ++ [some p] } }
        else
          Except.ok (false,
            { st with trace := { st.trace with openAttempts := st.trace.openAttempts ++ [some p] } })

/-- The common warp-and-append tail of the tile body (source lines
449-460): using an unbound `resultRaster` raises `NameError`, which the
`except` catches (tile skipped, no warp attempted); otherwise the warp is
attempted and, on success, the destination file is written. -/
def warpAppend (env : Env) (st : St) (dest : String) : Except Unit (Option String × St) :=
  if st.resultRaster then
    let stw := { st with trace := { st.trace with warpAttempts := st.trace.warpAttempts ++ [dest] } }
    if env.warpOk dest then
      Except.ok (some dest, { stw with fs := stw.fs ++ [dest] })
    else
      Except.ok (none, stw)
  else
    Except.ok (none, st)

/-- One iteration of the main calculation loop (source lines 267-460) for
one tile: read `outFolder`/`outName` (a missing key raises), skip the
whole pipeline when the destination file exists, otherwise run the product
block (band opening, index calculation, memory-raster creation) and the
warp; the returned `Option String` is the path appended to `tiles` (line
460), `none` when a `continue` skipped the append. -/
def processTile (env : Env) (prodName : String) (e : Entry) (st : St) :
    Except Unit (Option String × St) :=
  match e.outFolder, e.outName with
  | some ofo, some onm =>
    let st1 := { st with outName := some onm }
    if joinPath ofo onm ∈ st1.fs then
      Except.ok (some (joinPath ofo onm), st1)
    else
      match bandOpenList prodName with
      | [] => warpAppend env st1 (joinPath ofo onm)
      | c :: cs =>
        match openBands env e (c :: cs) st1 with
        | Except.error u => Except.error u
        | Except.ok (false, st2) => Except.ok (none, st2)
        | Except.ok (true, st2) =>
          let st3 := { st2 with
            trace := { st2.trace with calcs := st2.trace.calcs ++ [prodName] } }
          if env.calcFails prodName then Except.ok (none, st3)
          else
            let st4 := { st3 with
              trace := { st3.trace with memCreates := st3.trace.memCreates ++ [prodName] } }
            if env.memFails prodName then Except.ok (none, st4)
            else warpAppend env { st4 with resultRaster := true } (joinPath ofo onm)
  | _, _ => Except.error ()

/-- The main calculation loop over all tiles, accumulating the `tiles`
list in iteration order. -/
def runTiles (env : Env) (prodName : String) :
    List Entry → St → List String → Except Unit (List String × St)
  | [], st, tiles => Except.ok (tiles, st)
  | e :: rest, st, tiles =>
    match processTile env prodName e st with
    | Except.error u => Except.error u
    | Except.ok (some d, st2) => runTiles env prodName rest st2 (tiles ++ [d])
    | Except.ok (none, st2) => runTiles env prodName rest st2 tiles

/-- The tile paths the main loop appends, in order (specification-side
companion of `runTiles`). -/
def producedTiles (env : Env) (prodName : String) : List Entry → St → List String
  | [], _ => []
  | e :: rest, st =>
    match processTile env prodName e st with
    | Except.error _ => []
    | Except.ok (some d, st2) => d :: producedTiles env prodName rest st2
    | Except.ok (none, st2) => producedTiles env prodName rest st2

/-- The output-folder creation loop (source lines 253-261): reading a
missing `outFolder` key raises (uncaught `KeyError`); a failing
`createOutFolder` is caught and has no modelled effect. -/
def createFolders : List Entry → Except Unit Unit
  | [] => Except.ok ()
  | e :: rest =>
    match e.outFolder with
    | none => Except.error ()
    | some _ => createFolders rest

/-- The mosaic step (source lines 462-487): the mosaic name is derived
from the loop variable `outName` (unbound use raises `NameError`;
too few underscore tokens raises `IndexError`); a failing folder creation
or VRT build is caught and skips the product (`newDate` stays absent);
otherwise `newDate` is recorded.  Every `gdal.BuildVRT` call is traced
with the exact tile list passed to it. -/
def mosaicStep (env : Env) (imageryDate : String) (p : ProductCfg) (st : St)
    (tiles : List String) : Except Unit (ProdRecord × St) :=
  match st.outName with
  | none => Except.error ()
  | some onm =>
    match tok onm 1, tok onm 2 with
    | some t1, some t2 =>
      if env.mkdirOk (joinPath (joinPath env.productOutput imageryDate) p.name) then
        let mosaicPath := joinPath (joinPath (joinPath env.productOutput imageryDate) p.name)
          (t1.take 8 ++ "_" ++ t2 ++ ".vrt")
        let st1 := { st with
          trace := { st.trace with vrtCalls := st.trace.vrtCalls ++ [(mosaicPath, tiles)] } }
        if env.vrtOk mosaicPath then
          Except.ok ({ name := p.name, newDate := some imageryDate }, st1)
        else
          Except.ok ({ name := p.name, newDate := none }, st1)
      else
        Except.ok ({ name := p.name, newDate := none }, st)
    | _, _ => Except.error ()

/-- The folder-creation / tile-loop / mosaic tail of one product
iteration (source lines 251-487), given the entries the product iterates
over and the current state. -/
def runProductTail (env : Env) (imageryDate : String) (p : ProductCfg) (st1 : St)
    (entries : List Entry) : Except Unit (ProdRecord × St) :=
  match createFolders entries with
  | Except.error u => Except.error u
  | Except.ok _ =>
    match runTiles env p.name entries st1 [] with
    | Except.error u => Except.error u
    | Except.ok (tiles, st2) => mosaicStep env imageryDate p st2 tiles

/-- One product iteration of `calculateProducts` (source lines 234-487):
a failing `getRequiredBandsPaths` is caught and logged but leaves
`requiredInputOutputPaths` unassigned, so the following loop over its keys
raises `NameError` when the local was never bound (and silently reuses the
previous product's paths when it was). -/
def runProduct (env : Env) (imageryDate : String) (p : ProductCfg) (st : St) :
    Except Unit (ProdRecord × St) :=
  let st1 :=
    match getRequiredBandsPaths p.name imageryDate p.bands env.rawInput env.productOutput
        p.resolution env.rawTree with
    | Except.ok l => { st with paths := some l }
    | Except.error _ => st
  match st1.paths with
  | none => Except.error ()
  | some entries => runProductTail env imageryDate p st1 entries

/-- The product loop, accumulating the `newProducts` dict in iteration
order. -/
def calcGo (env : Env) (imageryDate : String) :
    List ProductCfg → St → List (String × ProdRecord) →
    Except Unit (List (String × ProdRecord) × St)
  | [], st, acc => Except.ok (acc, st)
  | p :: rest, st, acc =>
    match runProduct env imageryDate p st with
    | Except.error u => Except.error u
    | Except.ok (r, st2) => calcGo env imageryDate rest st2 (acc ++ [(p.pid, r)])

/-- Initial state: the disk as found, all function-scoped locals unbound,
empty trace. -/
def initSt (env : Env) : St :=
  { fs := env.initialFS, paths := none, outName := none, resultRaster := false,
    trace := { openAttempts := [], calcs := [], memCreates := [], warpAttempts := [],
               vrtCalls := [] } }

/-- `calculateProducts` of `Sentinel2/A1_sentinel2_products.py`. -/
def calculateProducts (env : Env) (imageryDate : String) :
    Except Unit (List (String × ProdRecord) × St) :=
  calcGo env imageryDate env.products (initSt env) []

/-- The driver loop of `sentinel-2_process.py` (lines 26-28): publish
`(name, newDate)` for every entry of the returned mapping, reading
`newDate` unconditionally (a missing key raises `KeyError`). -/
def publishLoop : List (String × ProdRecord) → List (String × String) →
    Except Unit (List (String × String))
  | [], acc => Except.ok acc
  | (_, r) :: rest, acc =>
    match r.newDate with
    | none => Except.error ()
    | some nd => publishLoop rest (acc ++ [(r.name, nd)])

/-! ## Concrete configurations used by witnesses and counterexamples -/

/-- An NDVI product configuration. -/
def pNDVI : ProductCfg := { pid := "1", name := "NDVI", resolution := "R10m", bands := ["B08", "B04"] }

/-- An NDWI product configuration. -/
def pNDWI : ProductCfg := { pid := "2", name := "NDWI", resolution := "R10m", bands := ["B03", "B08"] }

/-- A granule carrying raw B04 and B08 files (so NDVI resolves fully and
NDWI is left with an unresolved B03 role). -/
def sfC10 : SafeFolder :=
  { name := "A.SAFE", granuleSub := some "L2A",
    imgBands := some ["T33_20200505T1_B04_10m.jp2", "T33_20200505T1_B08_10m.jp2"] }

/-- Environment with two products in which every external operation
succeeds except the NDWI mosaic build. -/
def envTwoProducts : Env :=
  { rawInput := "raw", productOutput := "out", products := [pNDVI, pNDWI],
    rawTree := some [sfC10], initialFS := [],
    openOk := fun _ => true, calcFails := fun _ => false, memFails := fun _ => false,
    warpOk := fun _ => true, mkdirOk := fun _ => true,
    vrtOk := fun mp => mp != "out/20200505/NDWI/20200505_NDWI.vrt" }

/-- Environment whose date folder under `rawInput` is missing, so the very
first `os.listdir` of `getRequiredBandsPaths` raises. -/
def envMissingDateFolder : Env := { envTwoProducts with rawTree := none, products := [pNDVI] }

/-- Environment whose date folder exists but contains no granule
directories at all. -/
def envEmptyDateFolder : Env := { envTwoProducts with rawTree := some [], products := [pNDVI] }

/-! ## State-stability lemmas -/

/-- `openBands` only appends open attempts: every other component of the
state is untouched. -/
lemma openBands_state (env : Env) (e : Entry) :
    ∀ (codes : List String) (st : St) (b : Bool) (st2 : St),
      openBands env e codes st = Except.ok (b, st2) →
      st2.fs = st.fs ∧ st2.paths = st.paths ∧ st2.outName = st.outName
        ∧ st2.resultRaster = st.resultRaster ∧ st2.trace.calcs = st.trace.calcs
        ∧ st2.trace.memCreates = st.trace.memCreates
        ∧ st2.trace.warpAttempts = st.trace.warpAttempts
        ∧ st2.trace.vrtCalls = st.trace.vrtCalls := by
  intro codes
  induction codes with
  | nil =>
    intro st b st2 h
    simp only [openBands, Except.ok.injEq, Prod.mk.injEq] at h
    obtain ⟨-, hst⟩ := h
    subst hst
    exact ⟨rfl, rfl, rfl, rfl, rfl, rfl, rfl, rfl⟩
  | cons c cs ih =>
    intro st b st2 h
    simp only [openBands] at h
    cases hl : e.bands.lookup c with
    | none =>
      rw [hl] at h
      exact absurd h (by simp)
    | some bp =>
      rw [hl] at h
      cases bp with
      | none =>
        dsimp only at h
        simp only [Except.ok.injEq, Prod.mk.injEq] at h
        obtain ⟨-, hst⟩ := h
        subst hst
        exact ⟨rfl, rfl, rfl, rfl, rfl, rfl, rfl, rfl⟩
      | some p =>
        dsimp only at h
        by_cases ho : env.openOk p = true
        · rw [if_pos ho] at h
          have hr := ih _ b st2 h
          exact hr
        · rw [if_neg ho] at h
          simp only [Except.ok.injEq, Prod.mk.injEq] at h
          obtain ⟨-, hst⟩ := h
          subst hst
          exact ⟨rfl, rfl, rfl, rfl, rfl, rfl, rfl, rfl⟩

/-- If some required code of the list is an unresolved `{}` placeholder
and `openBands` returns (no uncaught exception), it returns `false`: the
tile is skipped before the index calculation. -/
lemma openBands_unresolved (env : Env) (e : Entry) :
    ∀ (codes : List String) (st : St) (b : Bool) (st2 : St) (c : String),
      c ∈ codes → e.bands.lookup c = some none →
      openBands env e codes st = Except.ok (b, st2) → b = false := by
  intro codes
  induction codes with
  | nil =>
    intro st b st2 c hc
    exact absurd hc (by simp)
  | cons c0 cs ih =>
    intro st b st2 c hc hun h
    simp only [openBands] at h
    cases hl : e.bands.lookup c0 with
    | none =>
      rw [hl] at h
      exact absurd h (by simp)
    | some bp =>
      rw [hl] at h
      cases bp with
      | none =>
        dsimp only at h
        simp only [Except.ok.injEq, Prod.mk.injEq] at h
        exact h.1.symm
      | some p =>
        dsimp only at h
        have hc0 : c ≠ c0 := by
          intro hcc
          rw [hcc, hl] at hun
          exact absurd hun (by simp)
        have hcs : c ∈ cs := by
          rcases List.mem_cons.mp hc with h1 | h1
          · exact absurd h1 hc0
          · exact h1
        by_cases ho : env.openOk p = true
        · rw [if_pos ho] at h
          exact ih _ b st2 c hcs hun h
        · rw [if_neg ho] at h
          simp only [Except.ok.injEq, Prod.mk.injEq] at h
          exact h.1.symm

/-- `warpAppend` never touches the VRT-call or index-calculation trace. -/
lemma warpAppend_state (env : Env) (st : St) (dest : String) (r : Option String) (st2 : St)
    (h : warpAppend env st dest = Except.ok (r, st2)) :
    st2.trace.calcs = st.trace.calcs ∧ st2.trace.vrtCalls = st.trace.vrtCalls := by
  simp only [warpAppend] at h
  by_cases hr : st.resultRaster = true
  · rw [if_pos hr] at h
    by_cases hw : env.warpOk dest = true
    · rw [if_pos hw] at h
      simp only [Except.ok.injEq, Prod.mk.injEq] at h
      obtain ⟨-, hst⟩ := h
      subst hst
      exact ⟨rfl, rfl⟩
    · rw [if_neg hw] at h
      simp only [Except.ok.injEq, Prod.mk.injEq] at h
      obtain ⟨-, hst⟩ := h
      subst hst
      exact ⟨rfl, rfl⟩
  · rw [if_neg hr] at h
    simp only [Except.ok.injEq, Prod.mk.injEq] at h
    obtain ⟨-, hst⟩ := h
    subst hst
    exact ⟨rfl, rfl⟩

/-- `processTile` never records a VRT call. -/
lemma processTile_vrtCalls (env : Env) (prodName : String) (e : Entry) (st : St)
    (r : Option String) (st2 : St)
    (h : processTile env prodName e st = Except.ok (r, st2)) :
    st2.trace.vrtCalls = st.trace.vrtCalls := by
  simp only [processTile] at h
  cases hof : e.outFolder with
  | none =>
    rw [hof] at h
    exact absurd h (by simp)
  | some ofo =>
    rw [hof] at h
    cases hon : e.outName with
    | none =>
      rw [hon] at h
      exact absurd h (by simp)
    | some onm =>
      rw [hon] at h
      dsimp only at h
      by_cases hmem : joinPath ofo onm ∈ ({ st with outName := some onm } : St).fs
      · rw [if_pos hmem] at h
        simp only [Except.ok.injEq, Prod.mk.injEq] at h
        obtain ⟨-, hst⟩ := h
        subst hst
        rfl
      · rw [if_neg hmem] at h
        cases hbl : bandOpenList prodName with
        | nil =>
          rw [hbl] at h
          dsimp only at h
          exact warpAppend_state env _ _ r st2 h |>.2
        | cons c cs =>
          rw [hbl] at h
          dsimp only at h
          cases hob : openBands env e (c :: cs) { st with outName := some onm } with
          | error u =>
            rw [hob] at h
            exact absurd h (by simp)
          | ok pr =>
            obtain ⟨b, stb⟩ := pr
            rw [hob] at h
            have hsb := openBands_state env e (c :: cs) _ b stb hob
            cases b with
            | false =>
              dsimp only at h
              simp only [Except.ok.injEq, Prod.mk.injEq] at h
              obtain ⟨-, hst⟩ := h
              subst hst
              exact hsb.2.2.2.2.2.2.2
            | true =>
              dsimp only at h
              by_cases hcf : env.calcFails prodName = true
              · rw [if_pos hcf] at h
                simp only [Except.ok.injEq, Prod.mk.injEq] at h
                obtain ⟨-, hst⟩ := h
                subst hst
                exact hsb.2.2.2.2.2.2.2
              · rw [if_neg hcf] at h
                by_cases hmf : env.memFails prodName = true
                · rw [if_pos hmf] at h
                  simp only [Except.ok.injEq, Prod.mk.injEq] at h
                  obtain ⟨-, hst⟩ := h
                  subst hst
                  exact hsb.2.2.2.2.2.2.2
                · rw [if_neg hmf] at h
                  have hw := warpAppend_state env _ _ r st2 h
                  exact hw.2.trans hsb.2.2.2.2.2.2.2

/-- `runTiles` never records a VRT call. -/
lemma runTiles_vrtCalls (env : Env) (prodName : String) :
    ∀ (entries : List Entry) (st : St) (tiles tl : List String) (st2 : St),
      runTiles env prodName entries st tiles = Except.ok (tl, st2) →
      st2.trace.vrtCalls = st.trace.vrtCalls := by
  intro entries
  induction entries with
  | nil =>
    intro st tiles tl st2 h
    simp only [runTiles, Except.ok.injEq, Prod.mk.injEq] at h
    obtain ⟨-, hst⟩ := h
    subst hst
    rfl
  | cons e rest ih =>
    intro st tiles tl st2 h
    simp only [runTiles] at h
    cases hp : processTile env prodName e st with
    | error u =>
      rw [hp] at h
      exact absurd h (by simp)
    | ok pr =>
      obtain ⟨d, stp⟩ := pr
      rw [hp] at h
      have h1 := processTile_vrtCalls env prodName e st d stp hp
      cases d with
      | none =>
        dsimp only at h
        exact (ih _ _ tl st2 h).trans h1
      | some dd =>
        dsimp only at h
        exact (ih _ _ tl st2 h).trans h1

/-! ## Claim theorems on the orchestrator -/

/-- C3: if the destination tile file already exists, the entire per-tile
pipeline is skipped — no band opened, no index computed, no memory raster
created, no warp performed, no file written (the trace and file system are
completely unchanged) — yet the tile path is still appended to the
product's tile list. -/
theorem cache_hit_skips_pipeline (env : Env) (prodName : String) (e : Entry) (st : St)
    (ofo onm : String) (h1 : e.outFolder = some ofo) (h2 : e.outName = some onm)
    (h3 : joinPath ofo onm ∈ st.fs) :
    processTile env prodName e st
        = Except.ok (some (joinPath ofo onm), { st with outName := some onm })
    ∧ ({ st with outName := some onm } : St).fs = st.fs
    ∧ ({ st with outName := some onm } : St).trace = st.trace := by
  refine ⟨?_, rfl, rfl⟩
  simp only [processTile, h1, h2]
  rw [if_pos h3]

/-- Witness for C3 at a concrete cache-hit input. -/
theorem cache_hit_skips_pipeline_witness :
    processTile envTwoProducts "NDVI"
        { bands := [], outFolder := some "o", outName := some "n" }
        { initSt envTwoProducts with fs := ["o/n"] }
      = Except.ok (some (joinPath "o" "n"),
          { { initSt envTwoProducts with fs := ["o/n"] } with outName := some "n" }) :=
  (cache_hit_skips_pipeline envTwoProducts "NDVI"
    { bands := [], outFolder := some "o", outName := some "n" }
    { initSt envTwoProducts with fs := ["o/n"] } "o" "n" rfl rfl (by simp [joinPath])).1

/-- C4 is violated by the code: when path resolution fails for the first
product (here: the date folder under `rawInput` is missing, so its
`os.listdir` raises), the `except` branch logs but does not `continue`;
the subsequent loop over `requiredInputOutputPaths.keys()` then reads a
local that was never bound, raising an uncaught `NameError` that aborts
`calculateProducts` instead of proceeding to the next product. -/
theorem pathfail_first_product_aborts_run :
    calculateProducts envMissingDateFolder "20200505" = Except.error () := rfl

/-- C7 is violated by the code: with a date folder containing no granules
the tile list is empty and the tile loop never ran, so the mosaic step's
name derivation reads the loop variable `outName` that was never bound,
raising an uncaught `NameError` that aborts `calculateProducts`; mosaic
creation is not skipped-and-logged and the run does not continue. -/
theorem empty_tiles_aborts_run :
    calculateProducts envEmptyDateFolder "20200505" = Except.error () := rfl

/-- A ProcessingPath entry whose required role B08 is unresolved (the `{}`
placeholder) while B04 resolved. -/
def eC6 : Entry :=
  { bands := [("B04", some "p4"), ("B08", none)], outFolder := some "o", outName := some "n" }

/-- The state `processTile` produces from `eC6`: the band-opening stage
was reached (two `openRasterOneBand` calls, the second with the `{}`
placeholder) before the tile was skipped. -/
def stC6 : St :=
  { fs := [], paths := none, outName := some "n", resultRaster := false,
    trace := { openAttempts := [some "p4", none], calcs := [], memCreates := [],
               warpAttempts := [], vrtCalls := [] } }

/-- Counterexample to C6: an entry with an unresolved required role (B08
for NDVI) IS passed to the tile pipeline — the band-opening stage is
reached and `openRasterOneBand` is invoked (twice here) before the tile is
skipped — contradicting "never reaches band opening". -/
theorem unresolved_entry_reaches_band_opening :
    eC6.bands.lookup "B08" = some none
    ∧ "B08" ∈ bandOpenList "NDVI"
    ∧ processTile envTwoProducts "NDVI" eC6 (initSt envTwoProducts) = Except.ok (none, stC6)
    ∧ stC6.trace.openAttempts ≠ [] := by
  refine ⟨rfl, by simp [bandOpenList], rfl, by simp [stC6]⟩

/-- C6 (amended): an entry in which a required role is unresolved may
still enter the tile pipeline and reach band opening, where the open of
the `{}` placeholder fails and the tile is skipped; it never reaches index
calculation — no index-calculation event is added for such a tile. -/
theorem unresolved_role_never_reaches_calculation (env : Env) (prodName : String)
    (e : Entry) (st : St) (c : String) (r : Option String) (st2 : St)
    (hc : c ∈ bandOpenList prodName)
    (hun : e.bands.lookup c = some none)
    (h : processTile env prodName e st = Except.ok (r, st2)) :
    st2.trace.calcs = st.trace.calcs := by
  simp only [processTile] at h
  cases hof : e.outFolder with
  | none =>
    rw [hof] at h
    exact absurd h (by simp)
  | some ofo =>
    rw [hof] at h
    cases hon : e.outName with
    | none =>
      rw [hon] at h
      exact absurd h (by simp)
    | some onm =>
      rw [hon] at h
      dsimp only at h
      by_cases hmem : joinPath ofo onm ∈ ({ st with outName := some onm } : St).fs
      · rw [if_pos hmem] at h
        simp only [Except.ok.injEq, Prod.mk.injEq] at h
        obtain ⟨-, hst⟩ := h
        subst hst
        rfl
      · rw [if_neg hmem] at h
        cases hbl : bandOpenList prodName with
        | nil =>
          rw [hbl] at hc
          exact absurd hc (by simp)
        | cons c0 cs =>
          rw [hbl] at h hc
          dsimp only at h
          cases hob : openBands env e (c0 :: cs) { st with outName := some onm } with
          | error u =>
            rw [hob] at h
            exact absurd h (by simp)
          | ok pr =>
            obtain ⟨b, stb⟩ := pr
            rw [hob] at h
            have hbf : b = false := openBands_unresolved env e (c0 :: cs) _ b stb c hc hun hob
            subst hbf
            dsimp only at h
            simp only [Except.ok.injEq, Prod.mk.injEq] at h
            obtain ⟨-, hst⟩ := h
            subst hst
            exact (openBands_state env e (c0 :: cs) _ false stb hob).2.2.2.2.1

/-- Witness for the amended C6 at the concrete unresolved-role input. -/
theorem unresolved_role_never_reaches_calculation_witness :
    stC6.trace.calcs = (initSt envTwoProducts).trace.calcs :=
  unresolved_role_never_reaches_calculation envTwoProducts "NDVI" eC6
    (initSt envTwoProducts) "B08" none stC6 (by simp [bandOpenList]) rfl rfl

/-- A successful warp: the appended path is the destination, the warp
succeeded, and exactly that file was written. -/
lemma warpAppend_some (env : Env) (s : St) (dest : String) (d : String) (s2 : St)
    (h : warpAppend env s dest = Except.ok (some d, s2)) :
    d = dest ∧ env.warpOk dest = true ∧ s2.fs = s.fs ++ [dest] := by
  simp only [warpAppend] at h
  by_cases hr : s.resultRaster = true
  · rw [if_pos hr] at h
    by_cases hw : env.warpOk dest = true
    · rw [if_pos hw] at h
      simp only [Except.ok.injEq, Prod.mk.injEq, Option.some.injEq] at h
      obtain ⟨hd, hst⟩ := h
      subst hst
      exact ⟨hd.symm, hw, rfl⟩
    · rw [if_neg hw] at h
      simp at h
  · rw [if_neg hr] at h
    simp at h

/-- The tile list accumulated by the main loop is the initial list
followed by exactly the produced tiles, in order. -/
lemma runTiles_eq_producedTiles (env : Env) (prodName : String) :
    ∀ (entries : List Entry) (st : St) (tiles0 tl : List String) (stB : St),
      runTiles env prodName entries st tiles0 = Except.ok (tl, stB) →
      tl = tiles0 ++ producedTiles env prodName entries st := by
  intro entries
  induction entries with
  | nil =>
    intro st tiles0 tl stB h
    simp only [runTiles, Except.ok.injEq, Prod.mk.injEq] at h
    obtain ⟨htl, -⟩ := h
    subst htl
    simp [producedTiles]
  | cons e rest ih =>
    intro st tiles0 tl stB h
    simp only [runTiles] at h
    cases hp : processTile env prodName e st with
    | error u =>
      rw [hp] at h
      exact absurd h (by simp)
    | ok pr =>
      obtain ⟨dopt, stp⟩ := pr
      rw [hp] at h
      cases dopt with
      | some dd =>
        dsimp only at h
        have hres := ih stp (tiles0 ++ [dd]) tl stB h
        simp only [producedTiles, hp]
        rw [hres]
        simp
      | none =>
        dsimp only at h
        have hres := ih stp tiles0 tl stB h
        simp only [producedTiles, hp]
        exact hres

/-- C8: (i) a tile path appended by the main loop is always the entry's
destination `outFolder/outName`, and it is appended only when the tile was
successfully produced — either a cache hit (nothing changed) or a
successful warp that wrote exactly that file; (ii) the accumulated tile
list contains exactly the produced tiles in granule order (failed tiles
are absent); (iii) the mosaic step passes exactly the accumulated tile
list, unmodified and in order, to the (virtual, reference-only) VRT
build. -/
theorem mosaic_references_exactly_produced_tiles
    (env : Env) (prodName : String) (e : Entry) (st : St) (d : String) (stA : St)
    (entries : List Entry) (tiles0 tl : List String) (stB : St)
    (imageryDate : String) (p : ProductCfg) (stM stM2 : St) (rec0 : ProdRecord)
    (tiles : List String) :
    (processTile env prodName e st = Except.ok (some d, stA) →
      (∃ ofo onm, e.outFolder = some ofo ∧ e.outName = some onm ∧ d = joinPath ofo onm)
      ∧ ((d ∈ st.fs ∧ stA.fs = st.fs) ∨ (env.warpOk d = true ∧ stA.fs = st.fs ++ [d])))
    ∧ (runTiles env prodName entries st tiles0 = Except.ok (tl, stB) →
        tl = tiles0 ++ producedTiles env prodName entries st)
    ∧ (mosaicStep env imageryDate p stM tiles = Except.ok (rec0, stM2) →
        stM2.trace.vrtCalls = stM.trace.vrtCalls
        ∨ ∃ mp, stM2.trace.vrtCalls = stM.trace.vrtCalls ++ [(mp, tiles)]) := by
  refine ⟨fun h => ?_, fun h => runTiles_eq_producedTiles env prodName entries st tiles0 tl stB h, fun h => ?_⟩
  · simp only [processTile] at h
    cases hof : e.outFolder with
    | none =>
      rw [hof] at h
      exact absurd h (by simp)
    | some ofo =>
      rw [hof] at h
      cases hon : e.outName with
      | none =>
        rw [hon] at h
        exact absurd h (by simp)
      | some onm =>
        rw [hon] at h
        dsimp only at h
        by_cases hmem : joinPath ofo onm ∈ ({ st with outName := some onm } : St).fs
        · rw [if_pos hmem] at h
          simp only [Except.ok.injEq, Prod.mk.injEq, Option.some.injEq] at h
          obtain ⟨hd, hst⟩ := h
          subst hst
          exact ⟨⟨ofo, onm, rfl, rfl, hd.symm⟩, Or.inl ⟨hd ▸ hmem, rfl⟩⟩
        · rw [if_neg hmem] at h
          cases hbl : bandOpenList prodName with
          | nil =>
            rw [hbl] at h
            dsimp only at h
            have hw := warpAppend_some env _ _ d stA h
            refine ⟨⟨ofo, onm, rfl, rfl, hw.1⟩, Or.inr ⟨hw.1.symm ▸ hw.2.1, ?_⟩⟩
            rw [hw.2.2, hw.1]
          | cons c0 cs =>
            rw [hbl] at h
            dsimp only at h
            cases hob : openBands env e (c0 :: cs) { st with outName := some onm } with
            | error u =>
              rw [hob] at h
              exact absurd h (by simp)
            | ok pr =>
              obtain ⟨b, stb⟩ := pr
              rw [hob] at h
              have hsb := openBands_state env e (c0 :: cs) _ b stb hob
              cases b with
              | false =>
                dsimp only at h
                simp at h
              | true =>
                dsimp only at h
                by_cases hcf : env.calcFails prodName = true
                · rw [if_pos hcf] at h
                  simp at h
                · rw [if_neg hcf] at h
                  by_cases hmf : env.memFails prodName = true
                  · rw [if_pos hmf] at h
                    simp at h
                  · rw [if_neg hmf] at h
                    have hw := warpAppend_some env _ _ d stA h
                    refine ⟨⟨ofo, onm, rfl, rfl, hw.1⟩, Or.inr ⟨hw.1.symm ▸ hw.2.1, ?_⟩⟩
                    rw [hw.2.2, hw.1]
                    exact congrArg (fun l => l ++ [joinPath ofo onm]) hsb.1
  · simp only [mosaicStep] at h
    cases hos : stM.outName with
    | none =>
      rw [hos] at h
      exact absurd h (by simp)
    | some onm =>
      rw [hos] at h
      dsimp only at h
      cases ht1 : tok onm 1 with
      | none =>
        rw [ht1] at h
        dsimp only at h
        exact absurd h (by simp)
      | some t1 =>
        rw [ht1] at h
        cases ht2 : tok onm 2 with
        | none =>
          rw [ht2] at h
          dsimp only at h
          exact absurd h (by simp)
        | some t2 =>
          rw [ht2] at h
          dsimp only at h
          by_cases hm : env.mkdirOk (joinPath (joinPath env.productOutput imageryDate) p.name) = true
          · rw [if_pos hm] at h
            by_cases hv : env.vrtOk (joinPath (joinPath (joinPath env.productOutput imageryDate) p.name)
                (t1.take 8 ++ "_" ++ t2 ++ ".vrt")) = true
            · rw [if_pos hv] at h
              simp only [Except.ok.injEq, Prod.mk.injEq] at h
              obtain ⟨-, hst⟩ := h
              subst hst
              exact Or.inr ⟨_, rfl⟩
            · rw [if_neg hv] at h
              simp only [Except.ok.injEq, Prod.mk.injEq] at h
              obtain ⟨-, hst⟩ := h
              subst hst
              exact Or.inr ⟨_, rfl⟩
          · rw [if_neg hm] at h
            simp only [Except.ok.injEq, Prod.mk.injEq] at h
            obtain ⟨-, hst⟩ := h
            subst hst
            exact Or.inl rfl

/-- A fully resolved NDVI entry. -/
def eC8 : Entry :=
  { bands := [("B08", some "p8"), ("B04", some "p4")], outFolder := some "o",
    outName := some "T33_20200505T1_NDVI_0.tif" }

/-- The destination tile path of `eC8`. -/
def dC8 : String := "o/T33_20200505T1_NDVI_0.tif"

/-- The state after successfully producing the `eC8` tile. -/
def stC8A : St :=
  ((processTile envTwoProducts "NDVI" eC8 (initSt envTwoProducts)).toOption.getD
    (none, initSt envTwoProducts)).2

/-- The product record returned by the mosaic step for the `eC8` tile. -/
def recC8 : ProdRecord :=
  ((mosaicStep envTwoProducts "20200505" pNDVI stC8A [dC8]).toOption.getD
    ({ name := "", newDate := none }, initSt envTwoProducts)).1

/-- The state after the mosaic step for the `eC8` tile. -/
def stC8M : St :=
  ((mosaicStep envTwoProducts "20200505" pNDVI stC8A [dC8]).toOption.getD
    ({ name := "", newDate := none }, initSt envTwoProducts)).2

/-- Witness for C8 at a concrete one-tile success scenario. -/
theorem mosaic_references_exactly_produced_tiles_witness :
    ((∃ ofo onm, eC8.outFolder = some ofo ∧ eC8.outName = some onm ∧ dC8 = joinPath ofo onm)
      ∧ ((dC8 ∈ (initSt envTwoProducts).fs ∧ stC8A.fs = (initSt envTwoProducts).fs)
        ∨ (envTwoProducts.warpOk dC8 = true ∧ stC8A.fs = (initSt envTwoProducts).fs ++ [dC8])))
    ∧ ([dC8] = [] ++ producedTiles envTwoProducts "NDVI" [eC8] (initSt envTwoProducts))
    ∧ (stC8M.trace.vrtCalls = stC8A.trace.vrtCalls
      ∨ ∃ mp, stC8M.trace.vrtCalls = stC8A.trace.vrtCalls ++ [(mp, [dC8])]) := by
  have h := mosaic_references_exactly_produced_tiles envTwoProducts "NDVI" eC8
    (initSt envTwoProducts) dC8 stC8A [eC8] [] [dC8] stC8A "20200505" pNDVI stC8A stC8M
    recC8 [dC8]
  exact ⟨h.1 rfl, h.2.1 rfl, h.2.2 rfl⟩

/-- Full characterization of the mosaic step's outcome: the record always
carries the product's name; `newDate` is present exactly on a successful
VRT build. -/
lemma mosaicStep_cases (env : Env) (d : String) (p : ProductCfg) (stM : St)
    (tiles : List String) (rec0 : ProdRecord) (stM2 : St)
    (h : mosaicStep env d p stM tiles = Except.ok (rec0, stM2)) :
    rec0.name = p.name
    ∧ ((rec0.newDate = some d
          ∧ ∃ mp, stM2.trace.vrtCalls = stM.trace.vrtCalls ++ [(mp, tiles)]
              ∧ env.vrtOk mp = true)
      ∨ (rec0.newDate = none ∧ stM2.trace.vrtCalls = stM.trace.vrtCalls)
      ∨ (rec0.newDate = none
          ∧ ∃ mp, stM2.trace.vrtCalls = stM.trace.vrtCalls ++ [(mp, tiles)]
              ∧ env.vrtOk mp = false)) := by
  simp only [mosaicStep] at h
  cases hos : stM.outName with
  | none =>
    rw [hos] at h
    exact absurd h (by simp)
  | some onm =>
    rw [hos] at h
    dsimp only at h
    cases ht1 : tok onm 1 with
    | none =>
      rw [ht1] at h
      dsimp only at h
      exact absurd h (by simp)
    | some t1 =>
      rw [ht1] at h
      cases ht2 : tok onm 2 with
      | none =>
        rw [ht2] at h
        dsimp only at h
        exact absurd h (by simp)
      | some t2 =>
        rw [ht2] at h
        dsimp only at h
        by_cases hm : env.mkdirOk (joinPath (joinPath env.productOutput d) p.name) = true
        · rw [if_pos hm] at h
          by_cases hv : env.vrtOk (joinPath (joinPath (joinPath env.productOutput d) p.name)
              (t1.take 8 ++ "_" ++ t2 ++ ".vrt")) = true
          · rw [if_pos hv] at h
            simp only [Except.ok.injEq, Prod.mk.injEq] at h
            obtain ⟨hrec, hst⟩ := h
            subst hst
            subst hrec
            exact ⟨rfl, Or.inl ⟨rfl, _, rfl, hv⟩⟩
          · rw [if_neg hv] at h
            simp only [Except.ok.injEq, Prod.mk.injEq] at h
            obtain ⟨hrec, hst⟩ := h
            subst hst
            subst hrec
            exact ⟨rfl, Or.inr (Or.inr ⟨rfl, _, rfl, Bool.eq_false_iff.mpr hv⟩)⟩
        · rw [if_neg hm] at h
          simp only [Except.ok.injEq, Prod.mk.injEq] at h
          obtain ⟨hrec, hst⟩ := h
          subst hst
          subst hrec
          exact ⟨rfl, Or.inr (Or.inl ⟨rfl, rfl⟩)⟩

/-- Characterization of the tail of a product iteration: the record keeps
the product's name and `newDate` is present iff a VRT build was attempted
and succeeded. -/
lemma runProductTail_char (env : Env) (d : String) (p : ProductCfg) (st1 : St)
    (entries : List Entry) (r0 : ProdRecord) (st2 : St)
    (h : runProductTail env d p st1 entries = Except.ok (r0, st2)) :
    r0.name = p.name
    ∧ (r0.newDate = some d ↔
        ∃ mp tls, st2.trace.vrtCalls = st1.trace.vrtCalls ++ [(mp, tls)]
          ∧ env.vrtOk mp = true) := by
  simp only [runProductTail] at h
  cases hcf : createFolders entries with
  | error u =>
    rw [hcf] at h
    exact absurd h (by simp)
  | ok u =>
    rw [hcf] at h
    dsimp only at h
    cases hrt : runTiles env p.name entries st1 [] with
    | error u2 =>
      rw [hrt] at h
      exact absurd h (by simp)
    | ok pr =>
      obtain ⟨tiles, stM⟩ := pr
      rw [hrt] at h
      dsimp only at h
      have hvrt : stM.trace.vrtCalls = st1.trace.vrtCalls :=
        runTiles_vrtCalls env p.name entries st1 [] tiles stM hrt
      have hm := mosaicStep_cases env d p stM tiles r0 st2 h
      refine ⟨hm.1, ?_⟩
      rcases hm.2 with ⟨hnd, mp, happ, htrue⟩ | ⟨hnd, heq⟩ | ⟨hnd, mp, happ, hfalse⟩
      · constructor
        · intro _
          exact ⟨mp, tiles, by rw [happ, hvrt], htrue⟩
        · intro _
          exact hnd
      · rw [hnd]
        constructor
        · intro hcontra
          exact absurd hcontra (by simp)
        · rintro ⟨mp2, tls2, heq2, -⟩
          rw [heq, hvrt] at heq2
          have hlen := congrArg List.length heq2
          simp at hlen
      · rw [hnd]
        constructor
        · intro hcontra
          exact absurd hcontra (by simp)
        · rintro ⟨mp2, tls2, heq2, htrue2⟩
          rw [happ, hvrt] at heq2
          have h3 := List.append_cancel_left heq2
          simp only [List.cons.injEq, and_true, Prod.mk.injEq] at h3
          have hcontra : (false : Bool) = true := by
            rw [← hfalse, h3.1]
            exact htrue2
          exact absurd hcontra (by simp)

/-- Characterization of one full product iteration. -/
lemma runProduct_char (env : Env) (d : String) (p : ProductCfg) (st : St)
    (r0 : ProdRecord) (st2 : St)
    (h : runProduct env d p st = Except.ok (r0, st2)) :
    r0.name = p.name
    ∧ (r0.newDate = some d ↔
        ∃ mp tls, st2.trace.vrtCalls = st.trace.vrtCalls ++ [(mp, tls)]
          ∧ env.vrtOk mp = true) := by
  simp only [runProduct] at h
  cases hres : getRequiredBandsPaths p.name d p.bands env.rawInput env.productOutput
      p.resolution env.rawTree with
  | ok l =>
    rw [hres] at h
    dsimp only at h
    exact runProductTail_char env d p { st with paths := some l } l r0 st2 h
  | error u =>
    rw [hres] at h
    dsimp only at h
    cases hsp : st.paths with
    | none =>
      rw [hsp] at h
      exact absurd h (by simp)
    | some entries =>
      rw [hsp] at h
      dsimp only at h
      exact runProductTail_char env d p st entries r0 st2 h

/-- Everything already in the accumulator is in the final result of the
product loop. -/
lemma calcGo_acc_mem (env : Env) (d : String) :
    ∀ (ps : List ProductCfg) (st : St) (acc res : List (String × ProdRecord)) (stF : St),
      calcGo env d ps st acc = Except.ok (res, stF) → ∀ x ∈ acc, x ∈ res := by
  intro ps
  induction ps with
  | nil =>
    intro st acc res stF h x hx
    simp only [calcGo, Except.ok.injEq, Prod.mk.injEq] at h
    obtain ⟨hr, -⟩ := h
    subst hr
    exact hx
  | cons p rest ih =>
    intro st acc res stF h x hx
    simp only [calcGo] at h
    cases hrp : runProduct env d p st with
    | error u =>
      rw [hrp] at h
      exact absurd h (by simp)
    | ok pr =>
      obtain ⟨r0, st2⟩ := pr
      rw [hrp] at h
      dsimp only at h
      exact ih st2 (acc ++ [(p.pid, r0)]) res stF h x (by simp [hx])

/-- Every configured product of the remaining list gets an entry keyed by
its id and holding its name in the final result. -/
lemma calcGo_records (env : Env) (d : String) :
    ∀ (ps : List ProductCfg) (st : St) (acc res : List (String × ProdRecord)) (stF : St),
      calcGo env d ps st acc = Except.ok (res, stF) →
      ∀ q ∈ ps, ∃ rr, (q.pid, rr) ∈ res ∧ rr.name = q.name := by
  intro ps
  induction ps with
  | nil =>
    intro st acc res stF h q hq
    exact absurd hq (by simp)
  | cons p rest ih =>
    intro st acc res stF h q hq
    simp only [calcGo] at h
    cases hrp : runProduct env d p st with
    | error u =>
      rw [hrp] at h
      exact absurd h (by simp)
    | ok pr =>
      obtain ⟨r0, st2⟩ := pr
      rw [hrp] at h
      dsimp only at h
      rcases List.mem_cons.mp hq with hq1 | hq1
      · subst hq1
        refine ⟨r0, ?_, (runProduct_char env d q st r0 st2 hrp).1⟩
        exact calcGo_acc_mem env d rest st2 (acc ++ [(q.pid, r0)]) res stF h
          (q.pid, r0) (by simp)
      · exact ih st2 (acc ++ [(p.pid, r0)]) res stF h q hq1

/-- If any entry of the mapping lacks `newDate`, the driver's publish loop
raises (uncaught `KeyError`), whatever was already published. -/
lemma publishLoop_error_of_missing :
    ∀ (l : List (String × ProdRecord)) (x : String × ProdRecord),
      x ∈ l → x.2.newDate = none → ∀ acc, publishLoop l acc = Except.error () := by
  intro l
  induction l with
  | nil =>
    intro x hx
    exact absurd hx (by simp)
  | cons y rest ih =>
    intro x hx hnd acc
    obtain ⟨a, r⟩ := y
    simp only [publishLoop]
    rcases List.mem_cons.mp hx with hx1 | hx1
    · subst hx1
      rw [hnd]
    · cases hrd : r.newDate with
      | none => rfl
      | some nd => exact ih x hx1 hnd (acc ++ [(r.name, nd)])

/-- C10: (i) for every configured product the mapping returned by
`calculateProducts` contains an entry keyed by its id holding the
product's name, even when the product failed; (ii) for one product
iteration, the entry's `newDate` field is present iff that product's
mosaic (VRT) build was performed and completed; (iii) a consumer iterating
the mapping and reading `newDate` unconditionally — as the top-level
driver does — raises as soon as some entry lacks the field. -/
theorem product_entries_and_newDate (env : Env) (d : String)
    (res : List (String × ProdRecord)) (stF : St) (p : ProductCfg) (st st2 : St)
    (r0 : ProdRecord) (l : List (String × ProdRecord)) (x : String × ProdRecord) :
    (calculateProducts env d = Except.ok (res, stF) →
      ∀ q ∈ env.products, ∃ rr, (q.pid, rr) ∈ res ∧ rr.name = q.name)
    ∧ (runProduct env d p st = Except.ok (r0, st2) →
        r0.name = p.name
        ∧ (r0.newDate = some d ↔
            ∃ mp tls, st2.trace.vrtCalls = st.trace.vrtCalls ++ [(mp, tls)]
              ∧ env.vrtOk mp = true))
    ∧ (x ∈ l → x.2.newDate = none → publishLoop l [] = Except.error ()) :=
  ⟨fun h => calcGo_records env d env.products (initSt env) [] res stF h,
    fun h => runProduct_char env d p st r0 st2 h,
    fun hx hnd => publishLoop_error_of_missing l x hx hnd []⟩

/-- The mapping returned by the two-product run. -/
def resC10 : List (String × ProdRecord) :=
  ((calculateProducts envTwoProducts "20200505").toOption.getD
    ([], initSt envTwoProducts)).1

/-- The final state of the two-product run. -/
def stC10F : St :=
  ((calculateProducts envTwoProducts "20200505").toOption.getD
    ([], initSt envTwoProducts)).2

/-- The record of the successful NDVI iteration. -/
def recNDVI : ProdRecord :=
  ((runProduct envTwoProducts "20200505" pNDVI (initSt envTwoProducts)).toOption.getD
    ({ name := "", newDate := none }, initSt envTwoProducts)).1

/-- The state after the NDVI iteration. -/
def stNDVI2 : St :=
  ((runProduct envTwoProducts "20200505" pNDVI (initSt envTwoProducts)).toOption.getD
    ({ name := "", newDate := none }, initSt envTwoProducts)).2

/-- Witness for C10 at the concrete two-product run (NDVI succeeds, NDWI's
mosaic build fails, so its entry lacks `newDate` and the driver's publish
loop raises). -/
theorem product_entries_and_newDate_witness :
    (∃ rr, ("1", rr) ∈ resC10 ∧ rr.name = "NDVI")
    ∧ (recNDVI.name = "NDVI"
      ∧ (recNDVI.newDate = some "20200505" ↔
          ∃ mp tls, stNDVI2.trace.vrtCalls
              = (initSt envTwoProducts).trace.vrtCalls ++ [(mp, tls)]
            ∧ envTwoProducts.vrtOk mp = true))
    ∧ publishLoop resC10 [] = Except.error () := by
  have h := product_entries_and_newDate envTwoProducts "20200505" resC10 stC10F pNDVI
    (initSt envTwoProducts) stNDVI2 recNDVI resC10 ("2", { name := "NDWI", newDate := none })
  refine ⟨h.1 rfl pNDVI (by simp [envTwoProducts]), h.2.1 rfl, h.2.2 (by decide) rfl⟩

end Sentinel2
